import Mathlib

/-!
Verification of the assembler-instruction processors of the HLASM analyzer
(`asm_processor.cpp`), the members statement provider
(`members_statement_provider.cpp`) and the `resource_location` value type,
as a shallow embedding.  Shared context operations (`create_symbol`,
`align`, `reserve_storage_area`, `set_section`, `enter_copy_member`, ...)
whose implementations live outside the processor sources are modelled from
the specification of the Context component (spec section 4.1); each such
definition carries a note.  All state is explicit: an `OrdState` value
stands for the ordinary-assembly context, diagnostics are returned as
lists.
-/

namespace HlasmAnalyzer

/-- Interned identifier (`context::id_index`): equal ids iff the
case-folded names are equal; modelled as plain strings, already folded.
The empty string models the distinguished empty id. -/
abbrev IdIndex := String

/-- Diagnostic severities used by the analyzer output. -/
inductive Severity where
  | hint
  | info
  | warning
  | error
deriving DecidableEq

/-- Diagnostic codes appearing in the verified processor paths. -/
inductive DiagCode where
  | E031
  | E033
  | E053
  | E058
  | E062
  | E068
  | E073
  | A012
  | A115
  | A116
  | A117
  | A118
  | A119
  | A132
  | A133
  | A134
  | A245
  | A249
  | A250
  | A300
  | MNOTE
  | W016
deriving DecidableEq

/-- A diagnostic: code, severity and message text. -/
structure Diag where
  code : DiagCode
  severity : Severity
  message : String := ""
deriving DecidableEq

/-- An error-class diagnostic (`diagnostic_op::error_*`). -/
def errDiag (c : DiagCode) : Diag := { code := c, severity := Severity.error }

/-- A warning-class diagnostic (`diagnostic_op::warning_*` / `warn_*`). -/
def warnDiag (c : DiagCode) : Diag := { code := c, severity := Severity.warning }

/-- Symbol value (`context::symbol_value`): undefined, absolute, or
relocatable.  Addresses are flattened to an offset from the owning
origin of the owning section; space chains are not modelled. -/
inductive SymbolValue where
  | undef
  | abs (v : Int)
  | reloc (offset : Nat)
deriving DecidableEq

/-- Symbol origin (`context::symbol_origin`). -/
inductive SymbolOrigin where
  | DAT
  | EQU
  | ASM
  | SECT
  | MACH
  | UNKNOWN
deriving DecidableEq

/-- EBCDIC encoding of the character U, the undefined type attribute
(`symbol_attributes::undef_type`). -/
def undefType : Nat := 228

/-- Symbol attributes relevant to the verified paths: origin, type
attribute (one EBCDIC byte) and length attribute. -/
structure SymbolAttributes where
  origin : SymbolOrigin
  typeAttr : Nat
  lengthAttr : Nat
deriving DecidableEq

/-- An ordinary-assembly symbol. -/
structure Symbol where
  name : IdIndex
  value : SymbolValue
  attrs : SymbolAttributes
deriving DecidableEq

/-- Section kinds (`context::section_kind`). -/
inductive SectionKind where
  | executable
  | readonly
  | common
  | dummy
  | external
  | weakExternal
deriving DecidableEq

/-- A section: name and kind.  Location-counter chains are flattened into
the single `loctr` of `OrdState`. -/
structure Sect where
  name : IdIndex
  kind : SectionKind
deriving DecidableEq

/-- The ordinary-assembly context state used by the assembler-instruction
processors: symbol table (association list, first binding wins), section
list, the current location counter offset and the maximum offset reached
(`ord_ctx` of `hlasm_context`). -/
structure OrdState where
  symbols : List (IdIndex × Symbol) := []
  sections : List Sect := []
  loctr : Nat := 0
  maxLoctr : Nat := 0
deriving DecidableEq

/-- Symbol-table lookup (`ordinary_assembly_context::get_symbol`). -/
def lookupSymbol (st : OrdState) (n : IdIndex) : Option Symbol :=
  (st.symbols.find? (fun p => p.1 = n)).map (fun p => p.2)

/-- Modelled from the spec: `ordinary_assembly_context::symbol_defined`
(spec 4.1, `get_symbol`): a symbol is defined when it is present in the
symbol table. -/
def symbolDefined (st : OrdState) (n : IdIndex) : Bool :=
  (lookupSymbol st n).isSome

/-- Modelled from the spec: `create_symbol(id, value, attrs)` (spec 4.1)
records the symbol unless one with the same id is already defined. -/
def createSymbol (st : OrdState) (n : IdIndex) (v : SymbolValue)
    (a : SymbolAttributes) : OrdState :=
  if symbolDefined st n then st
  else { st with symbols := (n, { name := n, value := v, attrs := a }) :: st.symbols }

/-- Alignment (`context::alignment`): a byte offset within a boundary. -/
structure Alignment where
  byte : Nat
  boundary : Nat
deriving DecidableEq

/-- `context::no_align`. -/
def noAlign : Alignment := { byte := 0, boundary := 1 }

/-- `context::halfword`. -/
def halfword : Alignment := { byte := 0, boundary := 2 }

/-- The smallest offset `x ≥ l` with `x % a.boundary = a.byte`
(for `a.byte < a.boundary`). -/
def alignOffset (a : Alignment) (l : Nat) : Nat :=
  if a.boundary ≤ 1 then l
  else l + (a.byte + a.boundary - l % a.boundary) % a.boundary

/-- Modelled from the spec: `align(alignment)` (spec 4.1) advances the
location counter to the requested alignment. -/
def alignState (st : OrdState) (a : Alignment) : OrdState :=
  let l := alignOffset a st.loctr
  { st with loctr := l, maxLoctr := max st.maxLoctr l }

/-- Modelled from the spec: `reserve_storage_area(length, alignment)`
(spec 4.1) aligns and then advances the location counter by `len`. -/
def reserveStorage (st : OrdState) (len : Nat) (a : Alignment) : OrdState :=
  let st1 := alignState st a
  { st1 with loctr := st1.loctr + len, maxLoctr := max st1.maxLoctr (st1.loctr + len) }

/- ------------------------------------------------------------------ -/
/- Machine expressions and operands                                    -/
/- ------------------------------------------------------------------ -/

/-- Machine expression AST (`expressions::mach_expression`): constants,
ordinary-symbol references, the location counter, and binary terms. -/
inductive MachExpr where
  | const (v : Int)
  | sym (name : IdIndex)
  | loctrRef
  | add (l r : MachExpr)
  | sub (l r : MachExpr)
deriving DecidableEq

/-- `mach_expression::leftmost_term`: the leftmost leaf of the tree. -/
def leftmostTerm : MachExpr → MachExpr
  | MachExpr.add l _ => leftmostTerm l
  | MachExpr.sub l _ => leftmostTerm l
  | e => e

/-- Addition on symbol values: defined for absolute pairs and
relocatable-plus-absolute; everything else degrades to undefined. -/
def svAdd : SymbolValue → SymbolValue → SymbolValue
  | SymbolValue.abs a, SymbolValue.abs b => SymbolValue.abs (a + b)
  | SymbolValue.reloc a, SymbolValue.abs b =>
      if 0 ≤ (a : Int) + b then SymbolValue.reloc ((a : Int) + b).toNat else SymbolValue.undef
  | SymbolValue.abs a, SymbolValue.reloc b =>
      if 0 ≤ a + (b : Int) then SymbolValue.reloc (a + (b : Int)).toNat else SymbolValue.undef
  | _, _ => SymbolValue.undef

/-- Subtraction on symbol values; the difference of two relocatable
values in the same section is absolute. -/
def svSub : SymbolValue → SymbolValue → SymbolValue
  | SymbolValue.abs a, SymbolValue.abs b => SymbolValue.abs (a - b)
  | SymbolValue.reloc a, SymbolValue.abs b =>
      if 0 ≤ (a : Int) - b then SymbolValue.reloc ((a : Int) - b).toNat else SymbolValue.undef
  | SymbolValue.reloc a, SymbolValue.reloc b => SymbolValue.abs ((a : Int) - (b : Int))
  | _, _ => SymbolValue.undef

/-- `mach_expression::evaluate` against the current ordinary context:
symbols take their table value, the location counter the provided
counter. -/
def evalExpr (st : OrdState) : MachExpr → SymbolValue
  | MachExpr.const v => SymbolValue.abs v
  | MachExpr.sym n =>
      match lookupSymbol st n with
      | some s => s.value
      | none => SymbolValue.undef
  | MachExpr.loctrRef => SymbolValue.reloc st.loctr
  | MachExpr.add l r => svAdd (evalExpr st l) (evalExpr st r)
  | MachExpr.sub l r => svSub (evalExpr st l) (evalExpr st r)

/-- `get_dependencies(...).undefined_symbolics`: the referenced symbols
that are absent from the table or still carry an undefined value. -/
def undefSymbolics (st : OrdState) : MachExpr → List IdIndex
  | MachExpr.const _ => []
  | MachExpr.loctrRef => []
  | MachExpr.sym n =>
      match lookupSymbol st n with
      | some s => if s.value = SymbolValue.undef then [n] else []
      | none => [n]
  | MachExpr.add l r => undefSymbolics st l ++ undefSymbolics st r
  | MachExpr.sub l r => undefSymbolics st l ++ undefSymbolics st r

/-- `has_dependencies`: the expression references something undefined. -/
def hasDeps (st : OrdState) (e : MachExpr) : Bool :=
  !(undefSymbolics st e).isEmpty

/-- Statement operand (`semantics::operand`): empty operand, assembler
operand of kind EXPR (carrying the expression tree and the operand text
returned by `get_value()`), of kind STRING, of kind COMPLEX, or a
non-assembler operand. -/
inductive Operand where
  | empty
  | asmExpr (e : MachExpr) (txt : String)
  | asmString (s : String)
  | asmComplex
  | mach
deriving DecidableEq

/-- `try_get_abs_value` on an expression (asm_processor.cpp lines 50-61):
no dependencies and an absolute evaluation result. -/
def tryGetAbsValueExpr (st : OrdState) (e : MachExpr) : Option Int :=
  if hasDeps st e then none
  else
    match evalExpr st e with
    | SymbolValue.abs v => some v
    | _ => none

/-- `try_get_abs_value` on an operand (asm_processor.cpp lines 63-69):
only simple expression operands qualify. -/
def tryGetAbsValue (st : OrdState) (op : Operand) : Option Int :=
  match op with
  | Operand.asmExpr e _ => tryGetAbsValueExpr st e
  | _ => none

/-- Label field of a statement (`semantics::label_si`): empty, sequence
symbol, ordinary symbol, variable symbol or concatenation. -/
inductive LabelSi where
  | empty
  | seq (name : IdIndex)
  | ord (name : IdIndex)
  | varSym
  | concat
deriving DecidableEq

/-- `low_language_processor::find_label_symbol`: the ordinary-symbol name
of the label field, or the empty id. -/
def findLabelSymbol : LabelSi → IdIndex
  | LabelSi.ord n => n
  | _ => ""

/-- A rebuilt statement as the assembler-instruction processors see it:
label field and operand list. -/
structure Stmt where
  label : LabelSi
  ops : List Operand
deriving DecidableEq

/- ------------------------------------------------------------------ -/
/- COPY postprocessing (claim C2)                                      -/
/- ------------------------------------------------------------------ -/

/-- `asm_processor::common_copy_postprocess` (asm_processor.cpp lines
795-819) on the copy-member name stack: `processed` is the library-fetch
result; on success the member is entered unless its name already appears
anywhere on the whole copy stack, which is diagnosed `E062`.  The result
is (entered?, new stack, diagnostics).  `enter_copy_member` is modelled
from the spec (4.1) as pushing the member name. -/
def commonCopyPostprocess (processed : Bool) (name : IdIndex)
    (copyStack : List IdIndex) : Bool × List IdIndex × List Diag :=
  if processed = false then (false, copyStack, [errDiag DiagCode.E058])
  else if name ∈ copyStack then (false, copyStack, [errDiag DiagCode.E062])
  else (true, copyStack ++ [name], [])

/- ------------------------------------------------------------------ -/
/- START (claim C6)                                                    -/
/- ------------------------------------------------------------------ -/

/-- Modelled from the spec: attributes a section definition gives to its
name symbol (ordinary_assembly_context, outside the processor sources);
the exact values are immaterial to the claims. -/
def mkSectAttrs : SymbolAttributes :=
  { origin := SymbolOrigin.SECT, typeAttr := undefType, lengthAttr := 1 }

/-- `section_defined(name, kind)`. -/
def sectionDefined (st : OrdState) (n : IdIndex) (k : SectionKind) : Bool :=
  st.sections.any (fun s => decide (s.name = n ∧ s.kind = k))

/-- Modelled from the spec: `set_section(id, kind, loc)` (spec 4.1)
creates the section when absent and makes it current; a new non-private
section also defines its name as a symbol. -/
def setSection (st : OrdState) (n : IdIndex) (k : SectionKind) : OrdState :=
  if sectionDefined st n k then st
  else
    let st1 := { st with sections := st.sections ++ [{ name := n, kind := k }] }
    if n = "" then st1
    else createSymbol st1 n (SymbolValue.reloc 0) mkSectAttrs

/-- Modelled from the spec: `section_alignment().boundary` — the START
section alignment, doubleword by default. -/
def startSectionAlignment : Nat := 8

/-- `asm_processor::process_START` (asm_processor.cpp lines 1009-1063):
E073 when an executable or read-only section already exists, E031 when
the label is a defined symbol; otherwise establish the executable section
and reserve the (aligned) absolute initial offset. -/
def processSTART (st : OrdState) (stmt : Stmt) : OrdState × List Diag :=
  let sectName := findLabelSymbol stmt.label
  if st.sections.any
      (fun s => decide (s.kind = SectionKind.executable ∨ s.kind = SectionKind.readonly)) then
    (st, [errDiag DiagCode.E073])
  else if symbolDefined st sectName then
    (st, [errDiag DiagCode.E031])
  else
    let st1 := setSection st sectName SectionKind.executable
    if stmt.ops.length ≠ 1 then (st1, [])
    else
      match stmt.ops[0]? with
      | none => (st1, [])
      | some op =>
        match tryGetAbsValue st1 op with
        | none => (st1, [errDiag DiagCode.A250])
        | some off =>
            let mask := startSectionAlignment - 1
            let o : Nat := (off % 4294967296).toNat
            let o2 := if o % startSectionAlignment = 0 then o
              else
                let t := (o + mask) % 4294967296
                t - t % startSectionAlignment
            (reserveStorage st1 o2 noAlign, [])

/- ------------------------------------------------------------------ -/
/- EQU (claims C1 and C4)                                              -/
/- ------------------------------------------------------------------ -/

/-- Type-attribute operand of EQU (asm_processor.cpp lines 187-206): a
third assembler operand must be an expression evaluating to an absolute
value in 0..255, otherwise `A134`.  The `override_symbol_candidates`
wrapper suppresses undefined-symbol dependencies, so the expression is
evaluated immediately (an undefined reference evaluates to a
non-absolute value and is diagnosed). -/
def equTypeAttr (st : OrdState) (ops : List Operand) : Nat × List Diag :=
  match ops[2]? with
  | some (Operand.asmExpr e _) =>
      (match evalExpr st e with
       | SymbolValue.abs v =>
           if 0 ≤ v ∧ v ≤ 255 then (v.toNat, []) else (undefType, [errDiag DiagCode.A134])
       | _ => (undefType, [errDiag DiagCode.A134]))
  | some (Operand.asmString _) => (undefType, [errDiag DiagCode.A134])
  | some Operand.asmComplex => (undefType, [errDiag DiagCode.A134])
  | _ => (undefType, [])

/-- Length-attribute operand of EQU (asm_processor.cpp lines 208-227):
a second assembler operand must be an expression evaluating to an
absolute value in 0..65535, otherwise `A133`; `none` models
`undef_length`. -/
def equLenAttr (st : OrdState) (ops : List Operand) : Option Nat × List Diag :=
  match ops[1]? with
  | some (Operand.asmExpr e _) =>
      (match evalExpr st e with
       | SymbolValue.abs v =>
           if 0 ≤ v ∧ v ≤ 65535 then (some v.toNat, []) else (none, [errDiag DiagCode.A133])
       | _ => (none, [errDiag DiagCode.A133]))
  | some (Operand.asmString _) => (none, [errDiag DiagCode.A133])
  | some Operand.asmComplex => (none, [errDiag DiagCode.A133])
  | _ => (none, [])

/-- Default length attribute of an EQU symbol (asm_processor.cpp lines
238-252): inherit the length of the symbol named by the leftmost term when that
symbol is defined with a non-undefined value, else 1. -/
def equDefaultLength (st : OrdState) (e : MachExpr) : Nat :=
  match leftmostTerm e with
  | MachExpr.sym s =>
      match lookupSymbol st s with
      | some ls => if ls.value ≠ SymbolValue.undef then ls.attrs.lengthAttr else 1
      | none => 1
  | _ => 1

/-- `asm_processor::process_EQU` (asm_processor.cpp lines 159-272).
The three symbol-creation branches (fully resolved value, resolved
address with no unresolved spaces, postponed dependency) all create the
symbol with the same attributes; with no space chains in the model the
dependency branches collapse to creation with a placeholder value, and
the `E033` add-dependency failure (a cycle in the dependency table,
which is not modelled) cannot occur. -/
def processEQU (st : OrdState) (stmt : Stmt) : OrdState × List Diag :=
  let symbolName := findLabelSymbol stmt.label
  if symbolName = "" then
    (st, if stmt.label = LabelSi.empty then [errDiag DiagCode.E053] else [])
  else if symbolDefined st symbolName then
    (st, [errDiag DiagCode.E031])
  else if stmt.ops.length = 0 ∨ stmt.ops.length > 5 then
    (st, [errDiag DiagCode.A012])
  else
    let td := equTypeAttr st stmt.ops
    let ld := equLenAttr st stmt.ops
    match stmt.ops[0]? with
    | some (Operand.asmExpr e _) =>
        let lengthAttr :=
          match ld.1 with
          | some l => l
          | none => equDefaultLength st e
        let attrs : SymbolAttributes :=
          { origin := SymbolOrigin.EQU, typeAttr := td.1, lengthAttr := lengthAttr }
        if (undefSymbolics st e).isEmpty then
          (createSymbol st symbolName (evalExpr st e) attrs, td.2 ++ ld.2)
        else
          (createSymbol st symbolName SymbolValue.undef attrs, td.2 ++ ld.2)
    | _ => (st, td.2 ++ ld.2 ++ [errDiag DiagCode.A132])

/- ------------------------------------------------------------------ -/
/- MNOTE (claim C3)                                                    -/
/- ------------------------------------------------------------------ -/

/-- Digits-to-value accumulator for `try_get_number`. -/
def digitsToNat : List Char → Nat → Nat
  | [], acc => acc
  | c :: cs, acc => digitsToNat cs (acc * 10 + (c.toNat - 48))

/-- Parse an all-digit character list. -/
def parseDigits : List Char → Option Nat
  | [] => none
  | cs => if cs.all (fun c => c.isDigit) then some (digitsToNat cs 0) else none

/-- `try_get_number` (asm_processor.cpp lines 71-79): `std::from_chars`
for `int` over the whole string — optional minus sign, at least one
digit, no other characters, value within the 32-bit range. -/
def tryGetNumber (s : String) : Option Int :=
  match s.toList with
  | [] => none
  | c :: cs =>
      if c = '-' then
        match parseDigits cs with
        | some n => if (n : Int) ≤ 2147483648 then some (-(n : Int)) else none
        | none => none
      else
        match parseDigits (c :: cs) with
        | some n => if (n : Int) ≤ 2147483647 then some (n : Int) else none
        | none => none

/-- Modelled from the spec: `checking::MNOTE_max_message_length`
(constants not in the processor sources); spec 4.6: message length
at most 1020. -/
def mnoteMaxMessageLength : Nat := 1020

/-- Modelled from the spec: `checking::MNOTE_max_operands_length`; the
whole operand field (level digits plus message) is bounded by 1024. -/
def mnoteMaxOperandsLength : Nat := 1024

/-- Modelled from the spec: `diagnostic_op::mnote_diagnostic`
(diagnostic_op.cpp not in the processor sources): severity table of
spec section 7 — level at most 1 is a hint, 2-3 info, 4-7 warning,
8 and above error. -/
def levelToSeverity (level : Nat) : Severity :=
  if level ≤ 1 then Severity.hint
  else if level ≤ 3 then Severity.info
  else if level ≤ 7 then Severity.warning
  else Severity.error

/-- The single MNOTE diagnostic carrying the message. -/
def mnoteDiagnostic (level : Nat) (msg : String) : Diag :=
  { code := DiagCode.MNOTE, severity := levelToSeverity level, message := msg }

/-- Level and first-operand length of an MNOTE statement
(asm_processor.cpp lines 1314-1350): one operand means level 0; with two
operands an empty first operand means level 1, a sole location-counter
reference means level 0 (length 1), and an expression operand is parsed
from its text; anything else fails (`none`). -/
def mnoteLevelAndLen (ops : List Operand) : Option Int × Nat :=
  match ops with
  | [_] => (some 0, 0)
  | [op0, _] =>
      (match op0 with
       | Operand.empty => (some 1, 0)
       | Operand.asmExpr e txt =>
           if e = MachExpr.loctrRef then (some 0, 1)
           else (tryGetNumber txt, txt.length)
       | Operand.asmString _ => (none, 0)
       | Operand.asmComplex => (none, 0)
       | Operand.mach => (none, 0))
  | _ => (none, 0)

/-- `asm_processor::process_MNOTE` (asm_processor.cpp lines 1304-1398):
arity 1-2 (`A012` otherwise), level in 0..255 (`A119` otherwise), message
from the last operand (`A300` warning when not a quoted string), `A117`
with truncation past the message bound, `A118` past the operand-field
bound, and finally exactly one MNOTE diagnostic.  The
`update_mnote_max` bookkeeping has no diagnostic effect and is
omitted; `append_utf8_sanitized` is the identity on the modelled
texts. -/
def processMNOTE (ops : List Operand) : List Diag :=
  if ops.length = 1 ∨ ops.length = 2 then
    let ll := mnoteLevelAndLen ops
    match ll.1 with
    | none => [errDiag DiagCode.A119]
    | some lv =>
        if lv < 0 ∨ lv > 255 then [errDiag DiagCode.A119]
        else
          let td : String × List Diag :=
            match ops.getLast? with
            | some (Operand.asmString s) => (s, [])
            | some (Operand.asmExpr _ txt) => (txt, [warnDiag DiagCode.A300])
            | some Operand.asmComplex => ("", [warnDiag DiagCode.A300])
            | some Operand.empty => ("", [warnDiag DiagCode.A300])
            | some Operand.mach => ("", [warnDiag DiagCode.A300])
            | none => ("", [])
          let text := td.1
          let td2 : String × List Diag :=
            if text.length > mnoteMaxMessageLength then
              (text.take mnoteMaxMessageLength, [errDiag DiagCode.A117])
            else if text.length + ll.2 > mnoteMaxOperandsLength then
              (text, [errDiag DiagCode.A118])
            else (text, [])
          td.2 ++ td2.2 ++ [mnoteDiagnostic lv.toNat td2.1]
  else [errDiag DiagCode.A012]

/- ------------------------------------------------------------------ -/
/- ORG (claim C5)                                                      -/
/- ------------------------------------------------------------------ -/

/-- Modelled from the spec: `symbol_attributes::make_org_attrs`
(constants not in the processor sources); values immaterial to the
claims. -/
def mkOrgAttrs : SymbolAttributes :=
  { origin := SymbolOrigin.EQU, typeAttr := undefType, lengthAttr := 1 }

/-- The ORG boundary test (asm_processor.cpp line 607): a power of two
between 2 and 4096. -/
def orgBoundaryValid (v : Int) : Bool :=
  decide (2 ≤ v ∧ v ≤ 4096 ∧ (v.toNat &&& (v.toNat - 1)) = 0)

/-- Outcome of the ORG operand loop: an early return carrying its
diagnostics, or fall-through/break with the collected reloc expression,
boundary and offset. -/
inductive OrgScanResult where
  | ret (d : List Diag)
  | brk (relocExpr : Option MachExpr) (boundary : Nat) (offset : Int) (d : List Diag)
deriving DecidableEq

/-- The ORG operand loop (asm_processor.cpp lines 584-624): non-assembler
operands are skipped; an assembler operand without an expression breaks
the loop (diagnosing `A115` unless it is the first); operand 0 is the
relocatable expression; operand 1 must be a valid boundary (`A116` and
return otherwise); operand 2 must be absolute (`A115` and return
otherwise). -/
def orgScan (st : OrdState) :
    List Operand → Nat → Option MachExpr → Nat → Int → OrgScanResult
  | [], _, r, b, o => OrgScanResult.brk r b o []
  | op :: rest, i, r, b, o =>
      match op with
      | Operand.asmExpr e _ =>
          let r1 := if i = 0 then some e else r
          if i = 1 then
            match tryGetAbsValueExpr st e with
            | some v =>
                if orgBoundaryValid v then orgScan st rest (i + 1) r1 v.toNat o
                else OrgScanResult.ret [errDiag DiagCode.A116]
            | none => OrgScanResult.ret [errDiag DiagCode.A116]
          else if i = 2 then
            match tryGetAbsValueExpr st e with
            | some v => orgScan st rest (i + 1) r1 b v
            | none => OrgScanResult.ret [errDiag DiagCode.A115]
          else orgScan st rest (i + 1) r1 b o
      | Operand.asmString _ =>
          if i ≠ 0 then OrgScanResult.brk r b o [errDiag DiagCode.A115]
          else OrgScanResult.brk r b o []
      | Operand.asmComplex =>
          if i ≠ 0 then OrgScanResult.brk r b o [errDiag DiagCode.A115]
          else OrgScanResult.brk r b o []
      | _ => orgScan st rest (i + 1) r b o

/-- Result of `check_address_for_ORG`. -/
inductive CheckOrgResult where
  | valid
  | underflow
  | invalidAddress
deriving DecidableEq

/-- Modelled from the spec: `check_address_for_ORG` (implementation not
in the processor sources): `E068` when the target address falls before
the section origin; the invalid-address case (`A115`) involves
incompatible location-counter chains, which the flat address model
cannot produce. -/
def checkAddressForORG (relocVal : Nat) (offset : Int) : CheckOrgResult :=
  if (relocVal : Int) + offset < 0 then CheckOrgResult.underflow
  else CheckOrgResult.valid

/-- Commit an ORG target (asm_processor.cpp lines 655-684):
`set_location_counter_value` and the final boundary alignment. -/
def orgFinish (st : OrdState) (relocVal : Nat) (boundary : Nat) (offset : Int)
    (d : List Diag) : OrdState × List Diag :=
  match checkAddressForORG relocVal offset with
  | CheckOrgResult.underflow => (st, d ++ [errDiag DiagCode.E068])
  | CheckOrgResult.invalidAddress => (st, d ++ [errDiag DiagCode.A115])
  | CheckOrgResult.valid =>
      let target := ((relocVal : Int) + offset).toNat
      let st2 := { st with loctr := target, maxLoctr := max st.maxLoctr target }
      let st3 :=
        if 1 < boundary ∧ offset = 0 then alignState st2 { byte := 0, boundary := boundary }
        else st2
      (st3, d)

/-- Label handling of `process_ORG` (asm_processor.cpp lines 556-565):
E031 when the label names a defined symbol, otherwise the label is
created at the current counter; exposed as its own definition so the
boundary theorem can name the state in which the operands are
evaluated (the dependency solver is built after the label step). -/
def orgLabelState (st : OrdState) (stmt : Stmt) : OrdState × List Diag :=
  let label := findLabelSymbol stmt.label
  if label ≠ "" then
    if symbolDefined st label then (st, [errDiag DiagCode.E031])
    else (createSymbol st label (SymbolValue.reloc st.loctr) mkOrgAttrs, [])
  else (st, [])

/-- `asm_processor::process_ORG` (asm_processor.cpp lines 552-684).
With no operands (or two empty ones) the location counter is set to its
maximum reached value.  The postponed-dependency variant of
`set_location_counter_value` is collapsed onto the immediate one: with
no space chains in the model the unresolved address defaults to the
current counter, exactly as in the fallback of the source. -/
def processORG (st : OrdState) (stmt : Stmt) : OrdState × List Diag :=
  let sd := orgLabelState st stmt
  let st1 := sd.1
  let d1 := sd.2
  let ops := stmt.ops
  if ops.isEmpty ∨ (ops.length = 2 ∧ ops[0]? = some Operand.empty ∧ ops[1]? = some Operand.empty) then
    ({ st1 with loctr := st1.maxLoctr }, d1)
  else
    match orgScan st1 ops 0 none 0 0 with
    | OrgScanResult.ret d => (st1, d1 ++ d)
    | OrgScanResult.brk relocOpt boundary offset d =>
        match relocOpt with
        | none => (st1, d1 ++ d ++ [errDiag DiagCode.A245])
        | some re =>
            if (undefSymbolics st1 re).isEmpty then
              match evalExpr st1 re with
              | SymbolValue.reloc rv => orgFinish st1 rv boundary offset (d1 ++ d)
              | _ => (st1, d1 ++ d ++ [errDiag DiagCode.A245])
            else
              orgFinish st1 st1.loctr boundary offset (d1 ++ d)

/- ------------------------------------------------------------------ -/
/- CNOP (claim C10)                                                    -/
/- ------------------------------------------------------------------ -/

/-- Modelled from the spec: `symbol_attributes::make_cnop_attrs`
(constants not in the processor sources); values immaterial to the
claims. -/
def mkCnopAttrs : SymbolAttributes :=
  { origin := SymbolOrigin.MACH, typeAttr := undefType, lengthAttr := 1 }

/-- The CNOP operand test and alignment request (asm_processor.cpp lines
991-999): both operands absolute, byte non-negative and even, boundary a
positive power of two larger than the byte. -/
def cnopReserveCheck (st : OrdState) (op0 op1 : Operand) : Option (Nat × Nat) :=
  match tryGetAbsValue st op0, tryGetAbsValue st op1 with
  | some bv, some dv =>
      if 0 ≤ bv ∧ 0 < dv ∧ (dv.toNat &&& (dv.toNat - 1)) = 0 ∧ bv < dv ∧ bv % 2 = 0 then
        some (bv.toNat, dv.toNat)
      else none
  | _, _ => none

/-- `asm_processor::process_CNOP` (asm_processor.cpp lines 975-1006):
halfword alignment, label creation at the aligned counter, and the
conditional zero-length storage reservation at the requested `(byte,
boundary)` alignment; when the operands have dependencies or invalid
values the instruction is ignored (no diagnostic here — the label is
still generated). -/
def processCNOP (st : OrdState) (stmt : Stmt) : OrdState × List Diag :=
  let st0 := alignState st halfword
  let loctr := st0.loctr
  let sd : OrdState × List Diag :=
    let label := findLabelSymbol stmt.label
    if label ≠ "" then
      if symbolDefined st0 label then (st0, [errDiag DiagCode.E031])
      else (createSymbol st0 label (SymbolValue.reloc loctr) mkCnopAttrs, [])
    else (st0, [])
  let st1 := sd.1
  let d1 := sd.2
  if stmt.ops.length = 2 then
    match stmt.ops[0]?, stmt.ops[1]? with
    | some op0, some op1 =>
        (match cnopReserveCheck st1 op0 op1 with
         | some bd => (reserveStorage st1 0 { byte := bd.1, boundary := bd.2 }, d1)
         | none => (st1, d1))
    | _, _ => (st1, d1)
  else (st1, d1)

/- ------------------------------------------------------------------ -/
/- Members statement provider (claims C7 and C8)                       -/
/- ------------------------------------------------------------------ -/

/-- Processing kinds (`processing::processing_kind`). -/
inductive ProcKind where
  | ordinary
  | macdef
  | lookahead
  | copy
deriving DecidableEq

/-- Processing forms (`processing::processing_form`). -/
inductive ProcessingForm where
  | mach
  | asmForm
  | mac
  | ca
  | deferredForm
  | unknown
  | ignored
deriving DecidableEq

/-- Operand occurrence (`processing::operand_occurrence`). -/
inductive OperandOccurrence where
  | present
  | absent
deriving DecidableEq

/-- Processing status / its cache key (`processing_status_cache_key`):
form and operand occurrence. -/
structure ProcStatus where
  form : ProcessingForm
  occurrence : OperandOccurrence
deriving DecidableEq

/-- A deferred statement as seen by the provider: raw operand-field
text, logical column, and the diagnostics selected by
`filter_cached_diagnostics`. -/
structure DeferredStmt where
  text : String
  logicalColumn : Nat
  cachedDiags : List Diag
deriving DecidableEq

/-- One reparse-cache entry (`statement_cache::cached_statement_t`):
the resolved operands and the diagnostics recorded at reparse time. -/
structure CachedStmt where
  diags : List Diag
  resolvedOps : List Operand
deriving DecidableEq

/-- The per-statement reparse cache, keyed by processing status. -/
abbrev StmtCache := List (ProcStatus × CachedStmt)

/-- Cache lookup (`statement_cache::get` / `contains`). -/
def cacheGet (cache : StmtCache) (k : ProcStatus) : Option CachedStmt :=
  (cache.find? (fun p => p.1 = k)).map (fun p => p.2)

/-- `members_statement_provider::fill_cache`
(members_statement_provider.cpp lines 112-143): with an absent operand
field or an unknown/ignored form the entry holds empty operands and only
the filtered base diagnostics; otherwise the operand field is reparsed
(`parse` stands for the opaque `statement_fields_parser`) and its
diagnostics are appended. -/
def fillCache (parse : String → ProcStatus → List Operand × List Diag)
    (cache : StmtCache) (d : DeferredStmt) (status : ProcStatus) : StmtCache :=
  let item : CachedStmt :=
    if status.occurrence = OperandOccurrence.absent ∨ status.form = ProcessingForm.unknown
        ∨ status.form = ProcessingForm.ignored then
      { diags := d.cachedDiags, resolvedOps := [] }
    else
      let pr := parse d.text status
      { diags := d.cachedDiags ++ pr.2, resolvedOps := pr.1 }
  (status, item) :: cache

/-- `members_statement_provider::preprocess_deferred`
(members_statement_provider.cpp lines 145-166): fill the cache when the
key is absent, then add the cached diagnostics to the diagnostic stream
— except on behalf of a lookahead processor.  Returns the updated cache
and the diagnostics that were added. -/
def preprocessDeferred (parse : String → ProcStatus → List Operand × List Diag)
    (kind : ProcKind) (cache : StmtCache) (d : DeferredStmt) (status : ProcStatus) :
    StmtCache × List Diag :=
  let cache1 := if (cacheGet cache status).isSome then cache else fillCache parse cache d status
  match cacheGet cache1 status with
  | some item => (cache1, if kind ≠ ProcKind.lookahead then item.diags else [])
  | none => (cache1, [])

/-- Statement kinds (`context::statement_kind`). -/
inductive StmtKind where
  | resolved
  | deferredKind
  | errorKind
deriving DecidableEq

/-- The base statement held by a cache entry, abstracted to its kind
(payloads are irrelevant to the control flow of `get_next`). -/
structure CacheEntry where
  kind : StmtKind
deriving DecidableEq

/-- `members_statement_provider::get_next`
(members_statement_provider.cpp lines 35-94), with the collaborating
calls abstracted to inputs: `next` is the result of the protected
`get_next()` (the cache entry and an optionally pre-resolved
instruction), `ahead1`/`ahead2` whether the two
`try_trigger_attribute_lookahead` calls fire, and `status` the
answer of `get_processing_status` from the processor for a deferred statement.
The source throws `std::runtime_error` when the provider has already
finished; every other path returns a possibly null statement. -/
def getNext (finished : Bool) (next : Option (CacheEntry × Option IdIndex))
    (procKind : ProcKind) (ahead1 ahead2 : Bool) (status : Option ProcStatus) :
    Except String (Option Unit) :=
  if finished then Except.error "provider already finished"
  else
    match next with
    | none => Except.ok none
    | some (cache, _resolved) =>
        if procKind = ProcKind.ordinary ∧ cache.kind ≠ StmtKind.errorKind ∧ ahead1 then
          Except.ok none
        else
          match cache.kind, status with
          | StmtKind.deferredKind, none => Except.ok none
          | _, _ =>
              if procKind = ProcKind.ordinary ∧ ahead2 then Except.ok none
              else Except.ok (some ())

/- ------------------------------------------------------------------ -/
/- resource_location (claim C9)                                        -/
/- ------------------------------------------------------------------ -/

/-- `resource_location`: the shared `data` block is modelled as an
optional stored URI (an empty location holds no data).  The stored hash
is a function of the URI, so the hash comparison in `operator==` is
subsumed by URI equality. -/
abbrev ResourceLocation := Option String

/-- Modelled from the spec: the `resource_location` constructors
(resource_location.cpp is not among the sources) store the given URI
as-is; `lexically_normal` is a separate operation per the header
(resource_location.h lines 42-49) and the operation list of spec section 3.
Constructing from the empty URI yields the empty location
(`empty()` holds exactly when there is no data block). -/
def mkResourceLocation (uri : String) : ResourceLocation :=
  if uri = "" then none else some uri

/-- `resource_location::operator==` (resource_location.h lines 70-74):
the data pointers are equal, or both data blocks exist and agree on hash
and URI bytes; with the hash a function of the URI this is byte equality
of the stored URIs (or two empty locations). -/
def rlEq (a b : ResourceLocation) : Bool :=
  match a, b with
  | none, none => true
  | some u, some v => u = v
  | _, _ => false

/-- Split a character list at slashes. -/
def splitSlash : List Char → List Char → List String
  | [], cur => [String.mk cur.reverse]
  | c :: cs, cur =>
      if c = '/' then String.mk cur.reverse :: splitSlash cs []
      else splitSlash cs (c :: cur)

/-- Dot-segment removal over path segments: single dots are dropped and
a dot-dot consumes the preceding ordinary segment. -/
def removeDotSegments : List String → List String → List String
  | [], acc => acc.reverse
  | seg :: rest, acc =>
      if seg = "." then removeDotSegments rest acc
      else if seg = ".." then
        match acc with
        | [] => removeDotSegments rest [".."]
        | a :: tl => if a = ".." then removeDotSegments rest (seg :: a :: tl)
                     else removeDotSegments rest tl
      else removeDotSegments rest (seg :: acc)

/-- Modelled from the spec: `lexically_normal` (resource_location.cpp is
not among the sources) behaves like the `std::filesystem` normalization
(header comment, resource_location.h lines 42-47): here, dot segments of
the path are removed; scheme-specific fixups are not needed for the
claims. -/
def rlLexicallyNormal : ResourceLocation → ResourceLocation
  | none => none
  | some u => some (String.intercalate "/" (removeDotSegments (splitSlash u.toList []) []))

/- ------------------------------------------------------------------ -/
/- Helper lemmas                                                       -/
/- ------------------------------------------------------------------ -/

/-- Creating an undefined symbol makes it the most recent binding. -/
theorem lookupSymbol_createSymbol_self (st : OrdState) (n : IdIndex)
    (v : SymbolValue) (a : SymbolAttributes) (h : symbolDefined st n = false) :
    lookupSymbol (createSymbol st n v a) n =
      some { name := n, value := v, attrs := a } := by
  simp [createSymbol, h, lookupSymbol]

/-- Creating a symbol never moves the location counter. -/
theorem createSymbol_loctr (st : OrdState) (n : IdIndex) (v : SymbolValue)
    (a : SymbolAttributes) : (createSymbol st n v a).loctr = st.loctr := by
  unfold createSymbol
  split <;> rfl

/-- Alignment does not touch the symbol table. -/
theorem symbolDefined_alignState (st : OrdState) (a : Alignment) (n : IdIndex) :
    symbolDefined (alignState st a) n = symbolDefined st n := by
  rfl

/-- The MNOTE severity table over an integer level. -/
theorem levelToSeverity_int (lv : Int) :
    levelToSeverity lv.toNat =
      (if lv ≤ 1 then Severity.hint
       else if lv ≤ 3 then Severity.info
       else if lv ≤ 7 then Severity.warning
       else Severity.error) := by
  by_cases h1 : lv ≤ 1 <;> by_cases h3 : lv ≤ 3 <;> by_cases h7 : lv ≤ 7 <;>
    simp [levelToSeverity, Int.toNat_le, h1, h3, h7]

/-- Filtering for the MNOTE code drops prefixes of other codes. -/
theorem filter_mnote_aux (d1 d2 : List Diag) (m : Diag)
    (h1 : ∀ d ∈ d1, d.code ≠ DiagCode.MNOTE)
    (h2 : ∀ d ∈ d2, d.code ≠ DiagCode.MNOTE)
    (hm : m.code = DiagCode.MNOTE) :
    (d1 ++ d2 ++ [m]).filter (fun d => decide (d.code = DiagCode.MNOTE)) = [m] := by
  rw [List.filter_append, List.filter_append]
  rw [List.filter_eq_nil_iff.mpr (by intro d hd; simpa using h1 d hd)]
  rw [List.filter_eq_nil_iff.mpr (by intro d hd; simpa using h2 d hd)]
  simp [hm]

/-- Packaging of `filter_mnote_aux` with the message existential. -/
theorem filter_mnote_exists (d1 d2 : List Diag) (lv : Nat) (t : String) (sv : Severity)
    (h1 : ∀ d ∈ d1, d.code ≠ DiagCode.MNOTE)
    (h2 : ∀ d ∈ d2, d.code ≠ DiagCode.MNOTE)
    (hsv : levelToSeverity lv = sv) :
    ∃ msg, (d1 ++ d2 ++ [mnoteDiagnostic lv t]).filter
        (fun d => decide (d.code = DiagCode.MNOTE)) =
      [{ code := DiagCode.MNOTE, severity := sv, message := msg }] :=
  ⟨t, by rw [filter_mnote_aux d1 d2 _ h1 h2 rfl, mnoteDiagnostic, hsv]⟩

/-- `fill_cache` always inserts the requested key. -/
theorem cacheGet_fillCache (parse : String → ProcStatus → List Operand × List Diag)
    (cache : StmtCache) (d : DeferredStmt) (status : ProcStatus) :
    (cacheGet (fillCache parse cache d status) status).isSome = true := by
  simp [fillCache, cacheGet]

/- ------------------------------------------------------------------ -/
/- Claim theorems                                                      -/
/- ------------------------------------------------------------------ -/

/-- Claim C1: in `process_EQU`, a statement whose label names an already
defined symbol emits exactly diagnostic E031 and leaves the ordinary
context — in particular the value and attributes of the first definition —
unchanged. -/
theorem equ_duplicate_symbol_e031 (st : OrdState) (stmt : Stmt)
    (hne : findLabelSymbol stmt.label ≠ "")
    (hdef : symbolDefined st (findLabelSymbol stmt.label) = true) :
    processEQU st stmt = (st, [errDiag DiagCode.E031]) := by
  unfold processEQU
  simp [hne, hdef]

/-- Fixture: a context in which the symbol A is already defined. -/
def equDupState : OrdState :=
  { symbols := [("A", { name := "A", value := SymbolValue.abs 1, attrs := { origin := SymbolOrigin.EQU, typeAttr := 228, lengthAttr := 1 } })] }

/-- Fixture: the statement `A EQU 2`. -/
def equDupStmt : Stmt :=
  { label := LabelSi.ord "A", ops := [Operand.asmExpr (MachExpr.const 2) "2"] }

/-- Witness for C1: `A EQU 1` followed by `A EQU 2` diagnoses E031 and
keeps the table intact. -/
theorem equ_duplicate_symbol_e031_witness :
    findLabelSymbol equDupStmt.label ≠ ""
    ∧ symbolDefined equDupState "A" = true
    ∧ processEQU equDupState equDupStmt = (equDupState, [errDiag DiagCode.E031]) :=
  ⟨by decide, by decide,
   equ_duplicate_symbol_e031 _ _ (by decide) (by decide)⟩

/-- Claim C2: `common_copy_postprocess` keeps the copy-member name stack
duplicate-free — a member already anywhere on the whole copy stack is
diagnosed E062 and not entered, any other member is entered. -/
theorem copy_stack_stays_duplicate_free (processed : Bool) (name : IdIndex)
    (stack : List IdIndex) (hp : processed = true) :
    (name ∈ stack →
        (commonCopyPostprocess processed name stack).2.2 = [errDiag DiagCode.E062]
        ∧ (commonCopyPostprocess processed name stack).2.1 = stack)
    ∧ (name ∉ stack →
        (commonCopyPostprocess processed name stack).2.2 = []
        ∧ (commonCopyPostprocess processed name stack).2.1 = stack ++ [name])
    ∧ (stack.Nodup → ((commonCopyPostprocess processed name stack).2.1).Nodup) := by
  subst hp
  by_cases h : name ∈ stack
  · simp [commonCopyPostprocess, h]
  · simp [commonCopyPostprocess, h]
    intro hnd
    simp [List.nodup_append, hnd, h]

/-- Witness for C2: a member that copies itself is rejected with E062
and the stack is unchanged. -/
theorem copy_stack_stays_duplicate_free_witness :
    (true = true)
    ∧ (commonCopyPostprocess true "MEMBER" ["MEMBER"]).2.2 = [errDiag DiagCode.E062]
    ∧ (commonCopyPostprocess true "MEMBER" ["MEMBER"]).2.1 = ["MEMBER"] :=
  ⟨rfl,
   ((copy_stack_stays_duplicate_free true "MEMBER" ["MEMBER"] rfl).1 (by decide)).1,
   ((copy_stack_stays_duplicate_free true "MEMBER" ["MEMBER"] rfl).1 (by decide)).2⟩

/-- Claim C6: `process_START` while any executable or read-only section
exists emits E073 and leaves the context completely unchanged. -/
theorem start_after_executable_e073 (st : OrdState) (stmt : Stmt)
    (h : st.sections.any
      (fun s => decide (s.kind = SectionKind.executable ∨ s.kind = SectionKind.readonly)) = true) :
    processSTART st stmt = (st, [errDiag DiagCode.E073]) := by
  unfold processSTART
  simp only [h]
  rfl

/-- Fixture: a context holding a private executable section. -/
def startDupState : OrdState :=
  { sections := [{ name := "", kind := SectionKind.executable }] }

/-- Fixture: the statement `X START 0`. -/
def startDupStmt : Stmt :=
  { label := LabelSi.ord "X", ops := [Operand.asmExpr (MachExpr.const 0) "0"] }

/-- Witness for C6: `CSECT` followed by `X START 0` diagnoses E073. -/
theorem start_after_executable_e073_witness :
    startDupState.sections.any
      (fun s => decide (s.kind = SectionKind.executable ∨ s.kind = SectionKind.readonly)) = true
    ∧ processSTART startDupState startDupStmt = (startDupState, [errDiag DiagCode.E073]) :=
  ⟨by decide, start_after_executable_e073 _ _ (by decide)⟩

/-- The symbol created by an EQU whose length-attribute operand slot is
absent or empty carries the default length attribute, whatever the
remaining operands are (the type-attribute operand only contributes the
type byte, and all symbol-creation branches share the attributes). -/
theorem processEQU_no_length_creates (st : OrdState) (stmt : Stmt) (n : IdIndex)
    (e : MachExpr) (t : String)
    (hlab : stmt.label = LabelSi.ord n) (hn : n ≠ "")
    (hdef : symbolDefined st n = false)
    (hop0 : stmt.ops[0]? = some (Operand.asmExpr e t))
    (harity : stmt.ops.length ≤ 5)
    (hlen : stmt.ops[1]? = none ∨ stmt.ops[1]? = some Operand.empty) :
    ∃ v tA, lookupSymbol (processEQU st stmt).1 n =
      some { name := n, value := v,
             attrs := { origin := SymbolOrigin.EQU, typeAttr := tA,
                        lengthAttr := equDefaultLength st e } } := by
  have h0 : 0 < stmt.ops.length := by
    cases hl : stmt.ops with
    | nil => rw [hl] at hop0; exact absurd hop0 (by simp)
    | cons a l => simp [hl]
  have hld : (equLenAttr st stmt.ops).1 = none := by
    rcases hlen with h | h <;> simp [equLenAttr, h]
  unfold processEQU
  rw [hlab]
  simp only [findLabelSymbol]
  rw [if_neg hn]
  simp only [hdef, Bool.false_eq_true, if_false]
  rw [if_neg (by omega : ¬ (stmt.ops.length = 0 ∨ stmt.ops.length > 5))]
  rw [hop0]
  simp only [hld]
  by_cases hde : (undefSymbolics st e).isEmpty
  · exact ⟨evalExpr st e, (equTypeAttr st stmt.ops).1,
      by simp [hde, lookupSymbol_createSymbol_self st n _ _ hdef]⟩
  · exact ⟨SymbolValue.undef, (equTypeAttr st stmt.ops).1,
      by simp [hde, lookupSymbol_createSymbol_self st n _ _ hdef]⟩

/-- Claim C4: an EQU with no explicit length-attribute operand (the
second operand slot absent or empty, any number of further operands up
to the arity bound) gives the created symbol the length attribute of
the symbol named by the leftmost term of the value expression when
that symbol is already defined with a non-undefined value, and 1 in
every other case. -/
theorem equ_default_length_attribute (st : OrdState) (stmt : Stmt) (n : IdIndex)
    (e : MachExpr) (t : String)
    (hlab : stmt.label = LabelSi.ord n) (hn : n ≠ "")
    (hdef : symbolDefined st n = false)
    (hop0 : stmt.ops[0]? = some (Operand.asmExpr e t))
    (harity : stmt.ops.length ≤ 5)
    (hlen : stmt.ops[1]? = none ∨ stmt.ops[1]? = some Operand.empty) :
    ∃ sym, lookupSymbol (processEQU st stmt).1 n = some sym
      ∧ ((∃ s ls, leftmostTerm e = MachExpr.sym s ∧ lookupSymbol st s = some ls
            ∧ ls.value ≠ SymbolValue.undef ∧ sym.attrs.lengthAttr = ls.attrs.lengthAttr)
         ∨ ((¬ ∃ s ls, leftmostTerm e = MachExpr.sym s ∧ lookupSymbol st s = some ls
              ∧ ls.value ≠ SymbolValue.undef)
            ∧ sym.attrs.lengthAttr = 1)) := by
  obtain ⟨v, tA, hv⟩ := processEQU_no_length_creates st stmt n e t hlab hn hdef hop0 harity hlen
  refine ⟨_, hv, ?_⟩
  rcases hterm : leftmostTerm e with w | s | _ | ⟨l, r⟩ | ⟨l, r⟩
  · exact Or.inr ⟨by rintro ⟨s, ls, hs, _⟩; exact MachExpr.noConfusion hs,
      by simp [equDefaultLength, hterm]⟩
  · rcases hls : lookupSymbol st s with _ | ls
    · refine Or.inr ⟨?_, by simp [equDefaultLength, hterm, hls]⟩
      rintro ⟨s2, ls2, hs2, hl2, _⟩
      rw [MachExpr.sym.injEq] at hs2
      subst hs2
      rw [hls] at hl2
      exact Option.noConfusion hl2
    · by_cases hundef : ls.value = SymbolValue.undef
      · refine Or.inr ⟨?_, by simp [equDefaultLength, hterm, hls, hundef]⟩
        rintro ⟨s2, ls2, hs2, hl2, hne2⟩
        rw [MachExpr.sym.injEq] at hs2
        subst hs2
        rw [hls, Option.some.injEq] at hl2
        subst hl2
        exact hne2 hundef
      · exact Or.inl ⟨s, ls, rfl, hls, hundef,
          by simp [equDefaultLength, hterm, hls, hundef]⟩
  · exact Or.inr ⟨by rintro ⟨s, ls, hs, _⟩; exact MachExpr.noConfusion hs,
      by simp [equDefaultLength, hterm]⟩
  · exact Or.inr ⟨by rintro ⟨s, ls, hs, _⟩; exact MachExpr.noConfusion hs,
      by simp [equDefaultLength, hterm]⟩
  · exact Or.inr ⟨by rintro ⟨s, ls, hs, _⟩; exact MachExpr.noConfusion hs,
      by simp [equDefaultLength, hterm]⟩

/-- Fixture: a context defining B with length attribute 7. -/
def equLenState : OrdState :=
  { symbols := [("B", { name := "B", value := SymbolValue.abs 3, attrs := { origin := SymbolOrigin.EQU, typeAttr := 228, lengthAttr := 7 } })] }

/-- Fixture: the statement `C EQU B+1,,2` — no length-attribute operand
(empty second slot), a type-attribute operand present. -/
def equLenStmt : Stmt :=
  { label := LabelSi.ord "C",
    ops := [Operand.asmExpr (MachExpr.add (MachExpr.sym "B") (MachExpr.const 1)) "B+1",
            Operand.empty, Operand.asmExpr (MachExpr.const 2) "2"] }

/-- Witness for C4: `C EQU B+1,,2` with B defined of length 7 creates C
with inherited length 7. -/
theorem equ_default_length_attribute_witness :
    equLenStmt.label = LabelSi.ord "C"
    ∧ symbolDefined equLenState "C" = false
    ∧ ∃ sym, lookupSymbol (processEQU equLenState equLenStmt).1 "C" = some sym
      ∧ ((∃ s ls,
            leftmostTerm (MachExpr.add (MachExpr.sym "B") (MachExpr.const 1)) = MachExpr.sym s
            ∧ lookupSymbol equLenState s = some ls
            ∧ ls.value ≠ SymbolValue.undef ∧ sym.attrs.lengthAttr = ls.attrs.lengthAttr)
         ∨ ((¬ ∃ s ls,
              leftmostTerm (MachExpr.add (MachExpr.sym "B") (MachExpr.const 1)) = MachExpr.sym s
              ∧ lookupSymbol equLenState s = some ls ∧ ls.value ≠ SymbolValue.undef)
            ∧ sym.attrs.lengthAttr = 1)) :=
  ⟨rfl, by decide,
   equ_default_length_attribute equLenState equLenStmt "C" _ "B+1" rfl (by decide) (by decide)
     rfl (by decide) (Or.inr rfl)⟩

/-- Claim C3: an MNOTE with a valid level (after the defaulting of
`mnoteLevelAndLen`: one operand means level 0, an empty first of two
operands level 1, a sole location-counter reference level 0) emits
exactly one diagnostic with code MNOTE, whose severity is hint for
level at most 1, info for 2-3, warning for 4-7 and error for 8 and
above. -/
theorem mnote_single_diag_severity (ops : List Operand) (lv : Int) (len : Nat)
    (harity : ops.length = 1 ∨ ops.length = 2)
    (hlevel : mnoteLevelAndLen ops = (some lv, len))
    (h0 : 0 ≤ lv) (h255 : lv ≤ 255) :
    ∃ msg, (processMNOTE ops).filter (fun d => decide (d.code = DiagCode.MNOTE)) =
      [{ code := DiagCode.MNOTE,
         severity := if lv ≤ 1 then Severity.hint
           else if lv ≤ 3 then Severity.info
           else if lv ≤ 7 then Severity.warning
           else Severity.error,
         message := msg }] := by
  unfold processMNOTE
  rw [if_pos harity, hlevel]
  simp only []
  rw [if_neg (by omega : ¬ (lv < 0 ∨ lv > 255))]
  refine filter_mnote_exists _ _ _ _ _ ?_ ?_ (levelToSeverity_int lv)
  · rcases ops.getLast? with _ | op
    · simp
    · rcases op <;> simp <;> intro h <;> simp [warnDiag] at h
  · split
    · intro d hd
      simp at hd
      simp [hd, errDiag]
    · split
      · intro d hd
        simp at hd
        simp [hd, errDiag]
      · intro d hd
        simp at hd

/-- Witness for C3: ` MNOTE 4,...` with a quoted test message emits exactly one MNOTE
diagnostic of severity warning. -/
theorem mnote_single_diag_severity_witness :
    mnoteLevelAndLen [Operand.asmExpr (MachExpr.const 4) "4", Operand.asmString "test message"]
      = (some 4, 1)
    ∧ ∃ msg,
      (processMNOTE [Operand.asmExpr (MachExpr.const 4) "4", Operand.asmString "test message"]).filter
        (fun d => decide (d.code = DiagCode.MNOTE)) =
      [{ code := DiagCode.MNOTE,
         severity := if (4 : Int) ≤ 1 then Severity.hint
           else if (4 : Int) ≤ 3 then Severity.info
           else if (4 : Int) ≤ 7 then Severity.warning
           else Severity.error,
         message := msg }] :=
  ⟨by decide,
   mnote_single_diag_severity _ 4 1 (by decide) (by decide) (by decide) (by decide)⟩

/-- Fixture: the statement ` ORG *,3` (boundary 3 is not a power of two
in 2..4096). -/
def orgBadBoundaryStmt : Stmt :=
  { label := LabelSi.empty,
    ops := [Operand.asmExpr MachExpr.loctrRef "*", Operand.asmExpr (MachExpr.const 3) "3"] }

/-- Counterexample to claim C5 as stated: ` ORG *,3` has a boundary
operand evaluating to the absolute value 3, which is not a power of two
in [2, 4096]; the processor emits A116 — no A115 diagnostic appears. -/
theorem org_boundary_claim_counterexample :
    tryGetAbsValueExpr {} (MachExpr.const 3) = some 3
    ∧ orgBoundaryValid 3 = false
    ∧ (processORG {} orgBadBoundaryStmt).2 = [errDiag DiagCode.A116]
    ∧ errDiag DiagCode.A115 ∉ (processORG {} orgBadBoundaryStmt).2 := by
  decide

/-- The ORG label step never moves the location counter. -/
theorem orgLabelState_loctr (st : OrdState) (stmt : Stmt) :
    (orgLabelState st stmt).1.loctr = st.loctr := by
  unfold orgLabelState
  by_cases h1 : findLabelSymbol stmt.label ≠ ""
  · rw [if_pos h1]
    by_cases h2 : symbolDefined st (findLabelSymbol stmt.label) = true
    · simp [h2]
    · simp [h2, createSymbol_loctr]
  · rw [if_neg h1]

/-- The ORG label step emits at most an E031 diagnostic. -/
theorem orgLabelState_diags (st : OrdState) (stmt : Stmt) :
    (orgLabelState st stmt).2 = [] ∨ (orgLabelState st stmt).2 = [errDiag DiagCode.E031] := by
  unfold orgLabelState
  by_cases h1 : findLabelSymbol stmt.label ≠ ""
  · rw [if_pos h1]
    by_cases h2 : symbolDefined st (findLabelSymbol stmt.label) = true
    · simp [h2]
    · simp [h2]
  · rw [if_neg h1]
    exact Or.inl rfl

/-- Claim C5 (amended): every ORG statement whose boundary (second)
operand evaluates to an absolute value that is not a power of two in
[2, 4096] — with any label, any first operand that does not break the
scan (empty, non-assembler, or an expression) and any further
operands — is diagnosed with A116 (not A115), and the location counter
value is not modified (only the label step runs, which never moves the
counter).  Evaluation happens in the post-label state, exactly as the
dependency solver is built after the label step in the source. -/
theorem org_invalid_boundary_a116 (st : OrdState) (stmt : Stmt) (op0 : Operand)
    (e1 : MachExpr) (t1 : String) (rest : List Operand) (v : Int)
    (hops : stmt.ops = op0 :: Operand.asmExpr e1 t1 :: rest)
    (hop0 : op0 = Operand.empty ∨ op0 = Operand.mach
      ∨ ∃ e0 t0, op0 = Operand.asmExpr e0 t0)
    (habs : tryGetAbsValueExpr (orgLabelState st stmt).1 e1 = some v)
    (hbad : orgBoundaryValid v = false) :
    processORG st stmt =
      ((orgLabelState st stmt).1, (orgLabelState st stmt).2 ++ [errDiag DiagCode.A116])
    ∧ (processORG st stmt).1.loctr = st.loctr
    ∧ errDiag DiagCode.A115 ∉ (processORG st stmt).2 := by
  have hmain : processORG st stmt =
      ((orgLabelState st stmt).1, (orgLabelState st stmt).2 ++ [errDiag DiagCode.A116]) := by
    unfold processORG
    rw [hops]
    rw [if_neg (by simp)]
    rcases hop0 with rfl | rfl | ⟨e0, t0, rfl⟩ <;> simp [orgScan, habs, hbad]
  refine ⟨hmain, ?_, ?_⟩
  · rw [hmain]
    exact orgLabelState_loctr st stmt
  · rw [hmain]
    rcases orgLabelState_diags st stmt with h | h <;> rw [h] <;> simp [errDiag]

/-- Witness for the amended C5: ` ORG *,3` in the empty context. -/
theorem org_invalid_boundary_a116_witness :
    tryGetAbsValueExpr (orgLabelState {} orgBadBoundaryStmt).1 (MachExpr.const 3) = some 3
    ∧ orgBoundaryValid 3 = false
    ∧ processORG {} orgBadBoundaryStmt =
        ((orgLabelState {} orgBadBoundaryStmt).1,
         (orgLabelState {} orgBadBoundaryStmt).2 ++ [errDiag DiagCode.A116])
    ∧ (processORG {} orgBadBoundaryStmt).1.loctr = ({} : OrdState).loctr
    ∧ errDiag DiagCode.A115 ∉ (processORG {} orgBadBoundaryStmt).2 :=
  ⟨by decide, by decide,
   (org_invalid_boundary_a116 {} orgBadBoundaryStmt (Operand.asmExpr MachExpr.loctrRef "*")
      (MachExpr.const 3) "3" [] 3 rfl
      (Or.inr (Or.inr ⟨MachExpr.loctrRef, "*", rfl⟩)) (by decide) (by decide)).1,
   (org_invalid_boundary_a116 {} orgBadBoundaryStmt (Operand.asmExpr MachExpr.loctrRef "*")
      (MachExpr.const 3) "3" [] 3 rfl
      (Or.inr (Or.inr ⟨MachExpr.loctrRef, "*", rfl⟩)) (by decide) (by decide)).2.1,
   (org_invalid_boundary_a116 {} orgBadBoundaryStmt (Operand.asmExpr MachExpr.loctrRef "*")
      (MachExpr.const 3) "3" [] 3 rfl
      (Or.inr (Or.inr ⟨MachExpr.loctrRef, "*", rfl⟩)) (by decide) (by decide)).2.2⟩

/-- Claim C10: a CNOP whose two operands do not both evaluate to
absolute values accepted by the reserve test performs no storage
alignment or reservation beyond the initial halfword alignment and
emits no diagnostic, yet a non-empty not-yet-defined label is still
created as a symbol at the halfword-aligned location counter. -/
theorem cnop_invalid_operands_label (st : OrdState) (stmt : Stmt) (n : IdIndex)
    (o1 o2 : Operand)
    (hlab : stmt.label = LabelSi.ord n) (hn : n ≠ "")
    (hops : stmt.ops = [o1, o2])
    (hdef : symbolDefined st n = false)
    (hbad : cnopReserveCheck
        (createSymbol (alignState st halfword) n
          (SymbolValue.reloc (alignState st halfword).loctr) mkCnopAttrs)
        o1 o2 = none) :
    (processCNOP st stmt).2 = []
    ∧ (processCNOP st stmt).1.loctr = alignOffset halfword st.loctr
    ∧ lookupSymbol (processCNOP st stmt).1 n =
        some { name := n, value := SymbolValue.reloc (alignOffset halfword st.loctr),
               attrs := mkCnopAttrs } := by
  have hdef0 : symbolDefined (alignState st halfword) n = false := by
    rw [symbolDefined_alignState]; exact hdef
  have hres : processCNOP st stmt =
      (createSymbol (alignState st halfword) n
        (SymbolValue.reloc (alignState st halfword).loctr) mkCnopAttrs, []) := by
    unfold processCNOP
    rw [hlab, hops]
    simp only [findLabelSymbol]
    rw [if_pos hn]
    simp only [hdef0, Bool.false_eq_true, if_false]
    simp [hbad]
  refine ⟨by rw [hres], ?_, ?_⟩
  · rw [hres]
    simp only [createSymbol_loctr]
    rfl
  · rw [hres]
    have := lookupSymbol_createSymbol_self (alignState st halfword) n
      (SymbolValue.reloc (alignState st halfword).loctr) mkCnopAttrs hdef0
    simpa [alignState] using this

/-- Fixture: the statement `L CNOP 1,4` (odd byte value, so the reserve
test fails). -/
def cnopBadStmt : Stmt :=
  { label := LabelSi.ord "L",
    ops := [Operand.asmExpr (MachExpr.const 1) "1", Operand.asmExpr (MachExpr.const 4) "4"] }

/-- Witness for C10: `L CNOP 1,4` in the empty context creates L at
offset 0 and reserves nothing, with no diagnostics. -/
theorem cnop_invalid_operands_label_witness :
    cnopBadStmt.label = LabelSi.ord "L"
    ∧ symbolDefined {} "L" = false
    ∧ (processCNOP {} cnopBadStmt).2 = []
    ∧ (processCNOP {} cnopBadStmt).1.loctr = alignOffset halfword (0 : Nat)
    ∧ lookupSymbol (processCNOP {} cnopBadStmt).1 "L" =
        some { name := "L", value := SymbolValue.reloc (alignOffset halfword (0 : Nat)),
               attrs := mkCnopAttrs } :=
  ⟨rfl, by decide,
   (cnop_invalid_operands_label {} cnopBadStmt "L" _ _ rfl (by decide) rfl (by decide)
     (by decide)).1,
   (cnop_invalid_operands_label {} cnopBadStmt "L" _ _ rfl (by decide) rfl (by decide)
     (by decide)).2.1,
   (cnop_invalid_operands_label {} cnopBadStmt "L" _ _ rfl (by decide) rfl (by decide)
     (by decide)).2.2⟩

/-- Claim C7: when a deferred statement is re-parsed on behalf of a
lookahead processor none of the diagnostics recorded in its re-parse
cache are added to the diagnostic stream, while for every other
processing kind all cached re-parse diagnostics are added. -/
theorem preprocess_deferred_diag_propagation
    (parse : String → ProcStatus → List Operand × List Diag)
    (kind : ProcKind) (cache : StmtCache) (d : DeferredStmt) (status : ProcStatus) :
    (kind = ProcKind.lookahead →
      (preprocessDeferred parse kind cache d status).2 = [])
    ∧ (kind ≠ ProcKind.lookahead →
      (preprocessDeferred parse kind cache d status).2 =
        ((cacheGet (preprocessDeferred parse kind cache d status).1 status).getD
          { diags := [], resolvedOps := [] }).diags) := by
  unfold preprocessDeferred
  rcases hc : cacheGet cache status with _ | item
  · simp only [hc, Option.isSome_none, Bool.false_eq_true, if_false]
    rcases hf : cacheGet (fillCache parse cache d status) status with _ | item2
    · have := cacheGet_fillCache parse cache d status
      rw [hf] at this
      cases this
    · constructor
      · intro hk
        subst hk
        simp
      · intro hk
        simp [hk, hf]
  · simp only [hc, Option.isSome_some, if_true]
    constructor
    · intro hk
      subst hk
      simp
    · intro hk
      simp [hk, hc]

/-- Fixture: a parser answer used by the C7 witness. -/
def c7Parse : String → ProcStatus → List Operand × List Diag :=
  fun _ _ => ([], [errDiag DiagCode.A012])

/-- Fixture: a deferred statement carrying one filtered base
diagnostic. -/
def c7Deferred : DeferredStmt :=
  { text := "", logicalColumn := 0, cachedDiags := [errDiag DiagCode.E031] }

/-- Fixture: an assembler processing status with operands present. -/
def c7Status : ProcStatus :=
  { form := ProcessingForm.asmForm, occurrence := OperandOccurrence.present }

/-- Witness for C7: on behalf of an ordinary processor all cached
re-parse diagnostics are added. -/
theorem preprocess_deferred_diag_propagation_witness :
    ProcKind.ordinary ≠ ProcKind.lookahead
    ∧ (preprocessDeferred c7Parse ProcKind.ordinary [] c7Deferred c7Status).2 =
      ((cacheGet (preprocessDeferred c7Parse ProcKind.ordinary [] c7Deferred c7Status).1
        c7Status).getD { diags := [], resolvedOps := [] }).diags :=
  ⟨by decide,
   (preprocess_deferred_diag_propagation c7Parse ProcKind.ordinary [] c7Deferred c7Status).2
     (by decide)⟩

/-- Counterexample to claim C8 as stated: `get_next` called after the
provider has finished does raise an exception
(`throw std::runtime_error("provider already finished")`,
members_statement_provider.cpp lines 37-38), rather than reporting a
diagnostic or returning a statement. -/
theorem get_next_after_finished_counterexample :
    getNext true none ProcKind.ordinary false false none =
      Except.error "provider already finished" := by
  rfl

/-- Claim C8 (amended): a `get_next` call on a provider that has not
finished never raises an exception — every anomaly on those paths is a
diagnostic and a possibly null statement is returned — while a call
made after the provider has finished raises the runtime error. -/
theorem get_next_exception_only_after_finished (finished : Bool)
    (next : Option (CacheEntry × Option IdIndex)) (procKind : ProcKind)
    (ahead1 ahead2 : Bool) (status : Option ProcStatus) :
    (finished = false →
      ∃ r, getNext finished next procKind ahead1 ahead2 status = Except.ok r)
    ∧ (finished = true →
      getNext finished next procKind ahead1 ahead2 status =
        Except.error "provider already finished") := by
  constructor
  · intro hf
    subst hf
    rcases next with _ | ⟨⟨k⟩, ri⟩
    · exact ⟨none, rfl⟩
    · cases k <;> cases procKind <;> cases ahead1 <;> cases ahead2 <;>
        rcases status with _ | s <;> exact ⟨_, rfl⟩
  · intro hf
    subst hf
    rfl

/-- Witness for the amended C8: a not-yet-finished provider returns a
statement without raising. -/
theorem get_next_exception_only_after_finished_witness :
    (false = false)
    ∧ ∃ r, getNext false (some ({ kind := StmtKind.resolved }, none)) ProcKind.macdef
        false false none = Except.ok r :=
  ⟨rfl,
   (get_next_exception_only_after_finished false
     (some ({ kind := StmtKind.resolved }, none)) ProcKind.macdef false false none).1 rfl⟩

/-- Counterexample to claim C9 as stated: the locations built from
`a/./b` and `a/b` have byte-equal lexically normalized forms yet
compare unequal — `operator==` compares the stored URI bytes, not the
normalized ones. -/
theorem resource_location_eq_counterexample :
    rlLexicallyNormal (mkResourceLocation "a/./b") = rlLexicallyNormal (mkResourceLocation "a/b")
    ∧ rlEq (mkResourceLocation "a/./b") (mkResourceLocation "a/b") = false := by
  constructor
  · rfl
  · rfl

/-- Claim C9 (amended): `a == b` holds exactly when the byte sequences
of the stored URIs are equal (two empty locations also compare equal);
for locations whose URIs are already in lexically normal form this
coincides with byte equality of the normalized forms. -/
theorem resource_location_eq_stored_bytes (u v : String) :
    rlEq (mkResourceLocation u) (mkResourceLocation v) = true ↔ u = v := by
  unfold mkResourceLocation rlEq
  by_cases hu : u = "" <;> by_cases hv : v = "" <;> simp [hu, hv]
  exact fun h => hv h.symm

end HlasmAnalyzer
